import Mathlib

/-!
Verification of the π-estimation notebook (Chudnovsky and Ramanujan–Sato
series).  The source consists of a recursive `factorial` and, per series, an
`estimate_pi` function accumulating a finite sum and taking a reciprocal.

Python integer arithmetic is exact, so integer subexpressions are embedded as
`ℤ`/`ℕ`; float expressions are idealised to `ℝ` (true division, `math.sqrt`,
and `**` with a float exponent become real division, `Real.sqrt`, `Real.rpow`).
The recursion of `factorial` is embedded twice: a fuel-indexed version
`factorialE` over `ℤ` that is faithful on all integer inputs (the fuel models
Python's bounded recursion depth; exhausting it is a `RecursionError`), and the
total restriction `factorial` to the terminating domain `ℕ`, used inside the
series terms.  Division by zero raises `ZeroDivisionError` in Python, so the
estimators taking arbitrary integer term counts return `Except PyErr ℝ`.
-/

/-- Python runtime errors that the notebook's code can actually raise, plus
`valueError`, the exception an explicit invalid-argument check would raise
(the code contains no such check; the constructor exists so that statements
can distinguish the error actually raised from an invalid-argument error). -/
inductive PyErr where
  | recursionError
  | zeroDivisionError
  | valueError
deriving DecidableEq, Repr

/-- Embedding of the source's `factorial` on its terminating domain `n ≥ 0`:
`if n == 0: return 1` / `return n * factorial(n - 1)`. -/
def factorial : Nat → Nat
  | 0 => 1
  | n + 1 => (n + 1) * factorial n

/-- Fuel-indexed embedding of the source's `factorial` on all Python integers.
Each recursive call consumes one unit of fuel; fuel exhaustion models Python
raising `RecursionError` when the recursion depth limit is exceeded. -/
def factorialE : Nat → Int → Except PyErr Int
  | 0, _ => .error .recursionError
  | fuel + 1, n => if n = 0 then .ok 1 else (factorialE fuel (n - 1)).map (n * ·)

/-- Accumulation `sum_result = 0` followed by `for k in range(num_terms):
sum_result += f(k)`, as a left fold over `range num_terms`. -/
noncomputable def loopSum (f : ℕ → ℝ) (num_terms : ℕ) : ℝ :=
  ((List.range num_terms).map f).foldl (fun a b => a + b) 0

namespace Chudnovsky

/-- One term of the Chudnovsky loop body:
`numerator = (-1)**k * factorial(6*k) * (545140134*k + 13591409)` (exact
integer arithmetic) divided by
`denominator = factorial(3*k) * (factorial(k)**3) * (640320**(3*k + 3/2))`
(an integer times the float power `640320**(3*k + 1.5)`, idealised as a real
power). -/
noncomputable def term (k : ℕ) : ℝ :=
  (((-1 : ℤ) ^ k * (factorial (6 * k) : ℤ) * (545140134 * (k : ℤ) + 13591409) : ℤ) : ℝ) /
    ((factorial (3 * k) : ℝ) * (factorial k : ℝ) ^ 3 *
      (640320 : ℝ) ^ (3 * (k : ℝ) + 3 / 2))

/-- The accumulated `sum_result` after the Chudnovsky loop. -/
noncomputable def sum_result (num_terms : ℕ) : ℝ := loopSum term num_terms

/-- Embedding of the Chudnovsky `estimate_pi` on its non-exceptional path:
`return 1 / (12 * sum_result)`. -/
noncomputable def estimate_pi (num_terms : ℕ) : ℝ :=
  1 / (12 * sum_result num_terms)

/-- Embedding of the Chudnovsky `estimate_pi` on arbitrary Python integer
inputs: `range(num_terms)` is empty for `num_terms ≤ 0` (so the loop index set
is `range num_terms.toNat`), and the final `1 / (12 * sum_result)` raises
`ZeroDivisionError` when the accumulated sum is zero. -/
noncomputable def estimate_piE (num_terms : ℤ) : Except PyErr ℝ :=
  let s := sum_result num_terms.toNat
  if 12 * s = 0 then .error .zeroDivisionError else .ok (1 / (12 * s))

/-- One term of the series exactly as the specification writes it: the sign is
the integer parity of `k`, the factorials are the mathematical ones, and the
denominator's fractional power `640320^(3k+1.5)` is the integer power
`640320^(3k+1)` times the irrational factor `√640320`. -/
noncomputable def specTerm (k : ℕ) : ℝ :=
  (((if k % 2 = 0 then (1 : ℤ) else -1) * (Nat.factorial (6 * k) : ℤ) *
      (545140134 * (k : ℤ) + 13591409) : ℤ) : ℝ) /
    ((Nat.factorial (3 * k) : ℝ) * (Nat.factorial k : ℝ) ^ 3 *
      ((640320 : ℝ) ^ (3 * k + 1) * Real.sqrt 640320))

/-- The specification's sum `S = Σ_{k=0}^{k_max-1}` of `specTerm`. -/
noncomputable def specSum (k_max : ℕ) : ℝ := ∑ k in Finset.range k_max, specTerm k

end Chudnovsky

namespace Ramanujan

/-- One term of the Ramanujan–Sato loop body:
`numerator = factorial(4*k) * (1103 + 26390*k)` divided by
`denominator = (factorial(k)**4) * (396**(4*k))`; both sides are exact Python
integers and `/` is float true division, idealised as real division. -/
noncomputable def term (k : ℕ) : ℝ :=
  ((factorial (4 * k) * (1103 + 26390 * k) : ℕ) : ℝ) /
    ((factorial k ^ 4 * 396 ^ (4 * k) : ℕ) : ℝ)

/-- The accumulated `sum_result` after the Ramanujan–Sato loop. -/
noncomputable def sum_result (num_terms : ℕ) : ℝ := loopSum term num_terms

/-- Embedding of the Ramanujan–Sato `estimate_pi` on its non-exceptional path:
`factor = (2 * math.sqrt(2)) / 9801`, `pi_inverse = factor * sum_result`,
`return 1 / pi_inverse`. -/
noncomputable def estimate_pi (num_terms : ℕ) : ℝ :=
  let factor := 2 * Real.sqrt 2 / 9801
  let pi_inverse := factor * sum_result num_terms
  1 / pi_inverse

/-- Embedding of the Ramanujan–Sato `estimate_pi` on arbitrary Python integer
inputs: `range(num_terms)` is empty for `num_terms ≤ 0`, and the final
`1 / pi_inverse` raises `ZeroDivisionError` when `pi_inverse` is zero. -/
noncomputable def estimate_piE (num_terms : ℤ) : Except PyErr ℝ :=
  let factor := 2 * Real.sqrt 2 / 9801
  let pi_inverse := factor * sum_result num_terms.toNat
  if pi_inverse = 0 then .error .zeroDivisionError else .ok (1 / pi_inverse)

/-- One term of the series exactly as the specification writes it:
`(4k)! · (1103 + 26390k) / ((k!)^4 · 396^(4k))` with mathematical factorials. -/
noncomputable def specTerm (k : ℕ) : ℝ :=
  (Nat.factorial (4 * k) : ℝ) * (1103 + 26390 * (k : ℝ)) /
    ((Nat.factorial k : ℝ) ^ 4 * (396 : ℝ) ^ (4 * k))

/-- The specification's sum `S = Σ_{k=0}^{k_max-1}` of `specTerm`. -/
noncomputable def specSum (k_max : ℕ) : ℝ := ∑ k in Finset.range k_max, specTerm k

end Ramanujan

/-- The restricted `factorial` computes the mathematical factorial. -/
theorem factorial_eq_nat_factorial (n : ℕ) : factorial n = Nat.factorial n := by
  induction n with
  | zero => rfl
  | succ n ih => simp [factorial, Nat.factorial, ih]

/-- With fuel exceeding the argument, `factorialE` returns the exact
factorial on non-negative inputs. -/
theorem factorialE_ok (m : ℕ) : ∀ fuel : ℕ, m < fuel →
    factorialE fuel (m : ℤ) = .ok (Nat.factorial m) := by
  induction m with
  | zero =>
    intro fuel hf
    obtain ⟨f, rfl⟩ := Nat.exists_eq_add_of_lt hf
    simp [factorialE, Nat.factorial]
  | succ m ih =>
    intro fuel hf
    obtain ⟨f, rfl⟩ := Nat.exists_eq_add_of_lt hf
    have hm : (m : ℤ) + 1 - 1 = (m : ℤ) := by ring
    have hne : ((m : ℤ) + 1) ≠ 0 := by positivity
    have ihm := ih (m + f + 1) (by omega)
    simp only [factorialE, Nat.cast_add, Nat.cast_one, hne, if_false, hm]
    rw [show (m + 1 + f : ℕ) = m + f + 1 by omega] at *
    rw [ihm]
    simp [Except.map, Nat.factorial]

/-- On negative inputs the recursion never reaches the base case: whatever the
recursion-depth budget, the call ends in `RecursionError`, not in a value and
not in an invalid-argument (`ValueError`) rejection. -/
theorem factorialE_neg : ∀ (fuel : ℕ) (n : ℤ), n < 0 →
    factorialE fuel n = .error .recursionError := by
  intro fuel
  induction fuel with
  | zero => intro n _; rfl
  | succ f ih =>
    intro n hn
    have hne : n ≠ 0 := by omega
    have := ih (n - 1) (by omega)
    simp [factorialE, hne, this, Except.map]

/-- The sequential accumulation equals the finite sum over `range`. -/
theorem loopSum_eq_sum (f : ℕ → ℝ) (n : ℕ) :
    loopSum f n = ∑ k in Finset.range n, f k := by
  induction n with
  | zero => rfl
  | succ n ih =>
    rw [Finset.sum_range_succ, ← ih]
    unfold loopSum
    rw [List.range_succ, List.map_append, List.foldl_append]
    rfl

/-- The float power `640320**(3*k + 3/2)` agrees with the integer power
`640320^(3k+1)` times `√640320`. -/
theorem chud_rpow_eq (k : ℕ) :
    (640320 : ℝ) ^ (3 * (k : ℝ) + 3 / 2) =
      (640320 : ℝ) ^ (3 * k + 1) * Real.sqrt 640320 := by
  have hexp : 3 * (k : ℝ) + 3 / 2 = ((3 * k + 1 : ℕ) : ℝ) + 1 / 2 := by
    push_cast; ring
  rw [hexp, Real.rpow_add (by norm_num : (0 : ℝ) < 640320), Real.rpow_natCast,
    Real.sqrt_eq_rpow]

/-- Integer exponentiation `(-1)**k` is exactly the parity of `k`. -/
theorem neg_one_pow_parity (k : ℕ) :
    (-1 : ℤ) ^ k = if k % 2 = 0 then 1 else -1 := by
  rcases Nat.even_or_odd k with h | h
  · rw [Even.neg_one_pow h, if_pos (Nat.even_iff.mp h)]
  · rw [Odd.neg_one_pow h, if_neg (by simpa using Nat.odd_iff.mp h)]

/-- Each Chudnovsky loop term equals the specification's term. -/
theorem chud_term_eq_specTerm (k : ℕ) : Chudnovsky.term k = Chudnovsky.specTerm k := by
  unfold Chudnovsky.term Chudnovsky.specTerm
  rw [chud_rpow_eq, neg_one_pow_parity, factorial_eq_nat_factorial,
    factorial_eq_nat_factorial, factorial_eq_nat_factorial]

/-- The accumulated Chudnovsky sum equals the specification's sum. -/
theorem chud_sum_result_eq_specSum (n : ℕ) :
    Chudnovsky.sum_result n = Chudnovsky.specSum n := by
  unfold Chudnovsky.sum_result Chudnovsky.specSum
  rw [loopSum_eq_sum]
  exact Finset.sum_congr rfl fun k _ => chud_term_eq_specTerm k

/-- Each Ramanujan–Sato loop term equals the specification's term. -/
theorem ram_term_eq_specTerm (k : ℕ) : Ramanujan.term k = Ramanujan.specTerm k := by
  unfold Ramanujan.term Ramanujan.specTerm
  rw [factorial_eq_nat_factorial, factorial_eq_nat_factorial]
  push_cast
  ring

/-- The accumulated Ramanujan–Sato sum equals the specification's sum. -/
theorem ram_sum_result_eq_specSum (n : ℕ) :
    Ramanujan.sum_result n = Ramanujan.specSum n := by
  unfold Ramanujan.sum_result Ramanujan.specSum
  rw [loopSum_eq_sum]
  exact Finset.sum_congr rfl fun k _ => ram_term_eq_specTerm k

/-- For a non-positive term count the loop body never runs (the sum stays `0`)
and both estimators end in `ZeroDivisionError` at the final reciprocal. -/
theorem estimate_piE_nonpos (n : ℤ) (hn : n ≤ 0) :
    Chudnovsky.sum_result n.toNat = 0 ∧ Ramanujan.sum_result n.toNat = 0 ∧
    Chudnovsky.estimate_piE n = .error .zeroDivisionError ∧
    Ramanujan.estimate_piE n = .error .zeroDivisionError := by
  have ht : n.toNat = 0 := Int.toNat_of_nonpos hn
  have hc : Chudnovsky.sum_result n.toNat = 0 := by rw [ht]; rfl
  have hr : Ramanujan.sum_result n.toNat = 0 := by rw [ht]; rfl
  refine ⟨hc, hr, ?_, ?_⟩
  · unfold Chudnovsky.estimate_piE
    rw [hc]
    simp
  · unfold Ramanujan.estimate_piE
    rw [hr]
    simp

/-- C1: for every integer term count `k_max ≥ 1`, the Chudnovsky
`estimate_pi k_max` returns `1 / (12·S)`, where `S` is the specification's sum
over `k < k_max` of `(-1)^k (6k)! (545140134k + 13591409) /
((3k)! (k!)^3 640320^(3k+1.5))`, and the sign factor `(-1)^k` is exactly the
integer parity of `k`. -/
theorem chudnovsky_estimate_pi_matches_spec (k_max : ℕ) (h : 1 ≤ k_max) :
    Chudnovsky.estimate_pi k_max = 1 / (12 * Chudnovsky.specSum k_max) ∧
    ∀ k : ℕ, (-1 : ℤ) ^ k = if k % 2 = 0 then 1 else -1 := by
  refine ⟨?_, neg_one_pow_parity⟩
  unfold Chudnovsky.estimate_pi
  rw [chud_sum_result_eq_specSum]

/-- C1 witness: the Chudnovsky contract instantiated at `k_max = 1`. -/
theorem chudnovsky_estimate_pi_matches_spec_witness :
    1 ≤ 1 ∧ (Chudnovsky.estimate_pi 1 = 1 / (12 * Chudnovsky.specSum 1) ∧
      ∀ k : ℕ, (-1 : ℤ) ^ k = if k % 2 = 0 then 1 else -1) :=
  ⟨by decide, chudnovsky_estimate_pi_matches_spec 1 (by decide)⟩

/-- C2: for every integer term count `k_max ≥ 1`, the Ramanujan–Sato
`estimate_pi k_max` returns `1 / ((2√2/9801)·S)`, where `S` is the
specification's sum over `k < k_max` of
`(4k)! (1103 + 26390k) / ((k!)^4 396^(4k))`. -/
theorem ramanujan_estimate_pi_matches_spec (k_max : ℕ) (h : 1 ≤ k_max) :
    Ramanujan.estimate_pi k_max =
      1 / (2 * Real.sqrt 2 / 9801 * Ramanujan.specSum k_max) := by
  unfold Ramanujan.estimate_pi
  rw [ram_sum_result_eq_specSum]

/-- C2 witness: the Ramanujan–Sato contract instantiated at `k_max = 1`. -/
theorem ramanujan_estimate_pi_matches_spec_witness :
    1 ≤ 1 ∧ Ramanujan.estimate_pi 1 =
      1 / (2 * Real.sqrt 2 / 9801 * Ramanujan.specSum 1) :=
  ⟨by decide, ramanujan_estimate_pi_matches_spec 1 (by decide)⟩

/-- C3: for every integer `n ≥ 0` (and any recursion budget exceeding `n`),
`factorial(n)` returns the exact integer `n!`; in particular
`factorial(0) = 1` and `factorial(5) = 120`. -/
theorem factorial_exact_on_nonneg (n : ℤ) (fuel : ℕ) (h0 : 0 ≤ n)
    (hf : n.toNat < fuel) :
    factorialE fuel n = .ok (Nat.factorial n.toNat) ∧
    factorial 0 = 1 ∧ factorial 5 = 120 := by
  refine ⟨?_, rfl, rfl⟩
  have := factorialE_ok n.toNat fuel hf
  rwa [Int.toNat_of_nonneg h0] at this

/-- C3 witness: `factorial(5)` computed with recursion budget 6 returns `120`. -/
theorem factorial_exact_on_nonneg_witness :
    0 ≤ (5 : ℤ) ∧ (5 : ℤ).toNat < 6 ∧
      (factorialE 6 5 = .ok (Nat.factorial (5 : ℤ).toNat) ∧
        factorial 0 = 1 ∧ factorial 5 = 120) :=
  ⟨by decide, by decide, factorial_exact_on_nonneg 5 6 (by decide) (by decide)⟩

/-- C4 counterexample: at `n = -1`, with Python's default recursion budget,
`factorial` ends in `RecursionError` after recursive descent — not in the
`ValueError` an invalid-argument rejection would raise. -/
theorem factorial_neg_one_not_invalid_argument :
    factorialE 1000 (-1) = .error .recursionError ∧
    PyErr.recursionError ≠ PyErr.valueError :=
  ⟨factorialE_neg 1000 (-1) (by decide), by decide⟩

/-- C4 amended: for every integer `n < 0`, `factorial(n)` never returns a
value and never raises an invalid-argument error; the recursion decreases past
the base case until the recursion budget is exhausted, whatever that budget,
ending in `RecursionError`. -/
theorem factorial_neg_diverges (fuel : ℕ) (n : ℤ) (hn : n < 0) :
    factorialE fuel n = .error .recursionError :=
  factorialE_neg fuel n hn

/-- C4 amended witness: `factorial(-1)` with recursion budget 5. -/
theorem factorial_neg_diverges_witness :
    (-1 : ℤ) < 0 ∧ factorialE 5 (-1) = .error .recursionError :=
  ⟨by decide, factorial_neg_diverges 5 (-1) (by decide)⟩

/-- C5 counterexample: at term count `-1` both estimators fail with
`ZeroDivisionError` at the final reciprocal — not with the `ValueError` an
immediate invalid-argument rejection would raise. -/
theorem estimators_neg_one_not_invalid_argument :
    Chudnovsky.estimate_piE (-1) = .error .zeroDivisionError ∧
    Ramanujan.estimate_piE (-1) = .error .zeroDivisionError ∧
    PyErr.zeroDivisionError ≠ PyErr.valueError :=
  ⟨(estimate_piE_nonpos (-1) (by decide)).2.2.1,
    (estimate_piE_nonpos (-1) (by decide)).2.2.2, by decide⟩

/-- C5 amended: for every negative term count, both estimators run zero loop
iterations (the accumulated sum stays `0`, so no partial computation of the
sum is performed) and then fail with `ZeroDivisionError` at the final
reciprocal, rather than rejecting the call with an invalid-argument error. -/
theorem estimators_neg_zero_division (n : ℤ) (hn : n < 0) :
    Chudnovsky.sum_result n.toNat = 0 ∧ Ramanujan.sum_result n.toNat = 0 ∧
    Chudnovsky.estimate_piE n = .error .zeroDivisionError ∧
    Ramanujan.estimate_piE n = .error .zeroDivisionError :=
  estimate_piE_nonpos n (le_of_lt hn)

/-- C5 amended witness: both estimators at term count `-2`. -/
theorem estimators_neg_zero_division_witness :
    (-2 : ℤ) < 0 ∧
      (Chudnovsky.sum_result (-2 : ℤ).toNat = 0 ∧
        Ramanujan.sum_result (-2 : ℤ).toNat = 0 ∧
        Chudnovsky.estimate_piE (-2) = .error .zeroDivisionError ∧
        Ramanujan.estimate_piE (-2) = .error .zeroDivisionError) :=
  ⟨by decide, estimators_neg_zero_division (-2) (by decide)⟩

/-- C9: for every non-negative term count, the summation loop of either
estimator visits exactly `num_terms` indices `k`, and every factorial
invocation the loop body makes (`factorial(6k)`, `factorial(3k)`,
`factorial(k)` for Chudnovsky; `factorial(4k)`, `factorial(k)` for
Ramanujan–Sato) has a non-negative argument and terminates — a recursion
budget of argument-plus-one already suffices, the recursion decreasing its
argument to the base case. -/
theorem estimators_terminate (num_terms : ℕ) :
    (List.range num_terms).length = num_terms ∧
    ∀ k ∈ List.range num_terms,
      factorialE (6 * k + 1) ((6 * k : ℕ) : ℤ) = .ok (Nat.factorial (6 * k)) ∧
      factorialE (3 * k + 1) ((3 * k : ℕ) : ℤ) = .ok (Nat.factorial (3 * k)) ∧
      factorialE (k + 1) (k : ℤ) = .ok (Nat.factorial k) ∧
      factorialE (4 * k + 1) ((4 * k : ℕ) : ℤ) = .ok (Nat.factorial (4 * k)) := by
  refine ⟨List.length_range num_terms, fun k _ => ⟨?_, ?_, ?_, ?_⟩⟩ <;>
    exact factorialE_ok _ _ (Nat.lt_succ_self _)

/-- C9 witness: the termination statement instantiated at `num_terms = 2`. -/
theorem estimators_terminate_witness :
    (List.range 2).length = 2 ∧
    ∀ k ∈ List.range 2,
      factorialE (6 * k + 1) ((6 * k : ℕ) : ℤ) = .ok (Nat.factorial (6 * k)) ∧
      factorialE (3 * k + 1) ((3 * k : ℕ) : ℤ) = .ok (Nat.factorial (3 * k)) ∧
      factorialE (k + 1) (k : ℤ) = .ok (Nat.factorial k) ∧
      factorialE (4 * k + 1) ((4 * k : ℕ) : ℤ) = .ok (Nat.factorial (4 * k)) :=
  estimators_terminate 2

/-- C10: for every term count `n ≤ 0` (in particular `n = 0`), the loop body
of either estimator never executes, the accumulated sum stays `0`, and the
call fails with `ZeroDivisionError` at the final reciprocal, returning no
value. -/
theorem estimators_nonpos_zero_division (n : ℤ) (hn : n ≤ 0) :
    Chudnovsky.sum_result n.toNat = 0 ∧ Ramanujan.sum_result n.toNat = 0 ∧
    Chudnovsky.estimate_piE n = .error .zeroDivisionError ∧
    Ramanujan.estimate_piE n = .error .zeroDivisionError :=
  estimate_piE_nonpos n hn

/-- C10 witness: both estimators at term count `0`. -/
theorem estimators_nonpos_zero_division_witness :
    (0 : ℤ) ≤ 0 ∧
      (Chudnovsky.sum_result (0 : ℤ).toNat = 0 ∧
        Ramanujan.sum_result (0 : ℤ).toNat = 0 ∧
        Chudnovsky.estimate_piE 0 = .error .zeroDivisionError ∧
        Ramanujan.estimate_piE 0 = .error .zeroDivisionError) :=
  ⟨by decide, estimators_nonpos_zero_division 0 (by decide)⟩
